import Mathlib

/-!
Verification of the disk-backed, TTL-expiring memoization cache in
`aws_log_parser/cache.py`.

The embedding models:
  * Python values (`PyVal`) as far as the cache manipulates them:
    scalars, strings, lists, tuples, dicts, sets and (one-shot) generators;
  * Python's `str()` / `repr()` canonical string forms for those values
    (`strOf` / `reprOf`), used by `Cache._get_cache_key`;
  * MD5 (`md5Hex`), since the cache key is `hashlib.md5(key_str.encode()).hexdigest()`;
  * the store state as an association list from key to persisted file
    (`CacheStore`), where a file carries a payload (`Option PyVal`, `none`
    standing for an undecodable pickle) and a modification time;
  * the operations `Cache.get`, `Cache.set`, `Cache.clear`,
    `Cache.clear_expired`, `Cache._get_cache_key` and the memoizing
    `wrapper` produced by the `cached` decorator.

Time is modelled as an integer (`Int`); the wrapped callable is modelled as
a pure function from positional and keyword arguments to `Except PyErr PyVal`,
an `Except.error` standing for a raised exception.
-/

/-- A Python value, as far as the caching subsystem observes it.
`pyGen` is a lazy/streaming (one-shot) iterator that would yield the given
elements in order. -/
inductive PyVal where
  | pyNone : PyVal
  | pyBool (b : Bool) : PyVal
  | pyInt (n : Int) : PyVal
  | pyStr (s : String) : PyVal
  | pyList (xs : List PyVal) : PyVal
  | pyTuple (xs : List PyVal) : PyVal
  | pyDict (ps : List (PyVal × PyVal)) : PyVal
  | pySet (xs : List PyVal) : PyVal
  | pyGen (xs : List PyVal) : PyVal

open PyVal

/-- Escape one character of a Python string literal the way `repr` does,
given the chosen quote character `q`. -/
def escChar (q : Char) (c : Char) : List Char :=
  if c = '\\' then ['\\', '\\']
  else if c = '\n' then ['\\', 'n']
  else if c = '\r' then ['\\', 'r']
  else if c = '\t' then ['\\', 't']
  else if c = q then ['\\', q]
  else [c]

/-- Python `repr` of a string: single-quoted unless the string contains a
single quote but no double quote, with backslash escapes. -/
def pyStrQuote (s : String) : String :=
  let q := if s.data.contains '\x27' && !(s.data.contains '\x22') then '\x22' else '\x27'
  String.mk (q :: s.data.foldr (fun c acc => escChar q c ++ acc) [q])

/-- Assemble a Python tuple `repr` from the rendered element strings
(singleton tuples get a trailing comma). -/
def tupleWrap : List String → String
  | [] => "()"
  | [r] => "(" ++ r ++ ",)"
  | rs => "(" ++ String.intercalate (", ") rs ++ ")"

/-- Assemble a Python set `repr` from the rendered element strings. -/
def setWrap : List String → String
  | [] => "set()"
  | rs => "\x7b" ++ String.intercalate (", ") rs ++ "\x7d"

mutual

/-- Python `repr()` of a value (CPython's `repr` of a generator object embeds
a memory address; the model uses a fixed placeholder, which corresponds to
identifying a generator object with the sequence it yields). -/
def reprOf : PyVal → String
  | pyNone => "None"
  | pyBool b => if b then "True" else "False"
  | pyInt n => toString n
  | pyStr s => pyStrQuote s
  | pyList xs => "[" ++ String.intercalate (", ") (reprList xs) ++ "]"
  | pyTuple xs => tupleWrap (reprList xs)
  | pyDict ps => "\x7b" ++ String.intercalate (", ") (reprPairs ps) ++ "\x7d"
  | pySet xs => setWrap (reprList xs)
  | pyGen _ => "<generator object>"
termination_by v => sizeOf v

/-- `repr` of each element of a list of values. -/
def reprList : List PyVal → List String
  | [] => []
  | x :: xs => reprOf x :: reprList xs
termination_by xs => sizeOf xs

/-- Rendered `key: value` pairs of a dict. -/
def reprPairs : List (PyVal × PyVal) → List String
  | [] => []
  | (k, v) :: ps => (reprOf k ++ ": " ++ reprOf v) :: reprPairs ps
termination_by ps => sizeOf ps

end

/-- Python `str()` of a value: identity on strings, `repr` otherwise
(for the value shapes the cache meets). -/
def strOf : PyVal → String
  | pyStr s => s
  | v => reprOf v

/-! ### MD5

`Cache._get_cache_key` returns `hashlib.md5(key_str.encode()).hexdigest()`.
The digest is modelled bit-faithfully, over natural numbers reduced
modulo `2 ^ 32`. -/

/-- Reduce to a 32-bit word. -/
def w32 (n : Nat) : Nat := n % 4294967296

/-- Rotate a 32-bit word left by `s` bits. -/
def rotl32 (x s : Nat) : Nat := w32 ((x <<< s) ||| (x >>> (32 - s)))

/-- UTF-8 encoding of one character (Python's `str.encode()`). -/
def utf8Bytes (c : Char) : List Nat :=
  let n := c.toNat
  if n < 128 then [n]
  else if n < 2048 then [192 ||| (n >>> 6), 128 ||| (n &&& 63)]
  else if n < 65536 then
    [224 ||| (n >>> 12), 128 ||| ((n >>> 6) &&& 63), 128 ||| (n &&& 63)]
  else
    [240 ||| (n >>> 18), 128 ||| ((n >>> 12) &&& 63),
     128 ||| ((n >>> 6) &&& 63), 128 ||| (n &&& 63)]

/-- UTF-8 bytes of a string. -/
def strBytes (s : String) : List Nat :=
  s.data.foldr (fun c acc => utf8Bytes c ++ acc) []

/-- The 64 MD5 sine-derived constants. -/
def md5K : List Nat :=
  [0xd76aa478, 0xe8c7b756, 0x242070db, 0xc1bdceee,
   0xf57c0faf, 0x4787c62a, 0xa8304613, 0xfd469501,
   0x698098d8, 0x8b44f7af, 0xffff5bb1, 0x895cd7be,
   0x6b901122, 0xfd987193, 0xa679438e, 0x49b40821,
   0xf61e2562, 0xc040b340, 0x265e5a51, 0xe9b6c7aa,
   0xd62f105d, 0x02441453, 0xd8a1e681, 0xe7d3fbc8,
   0x21e1cde6, 0xc33707d6, 0xf4d50d87, 0x455a14ed,
   0xa9e3e905, 0xfcefa3f8, 0x676f02d9, 0x8d2a4c8a,
   0xfffa3942, 0x8771f681, 0x6d9d6122, 0xfde5380c,
   0xa4beea44, 0x4bdecfa9, 0xf6bb4b60, 0xbebfbc70,
   0x289b7ec6, 0xeaa127fa, 0xd4ef3085, 0x04881d05,
   0xd9d4d039, 0xe6db99e5, 0x1fa27cf8, 0xc4ac5665,
   0xf4292244, 0x432aff97, 0xab9423a7, 0xfc93a039,
   0x655b59c3, 0x8f0ccc92, 0xffeff47d, 0x85845dd1,
   0x6fa87e4f, 0xfe2ce6e0, 0xa3014314, 0x4e0811a1,
   0xf7537e82, 0xbd3af235, 0x2ad7d2bb, 0xeb86d391]

/-- The 64 MD5 per-round left-rotation amounts. -/
def md5S : List Nat :=
  [7, 12, 17, 22, 7, 12, 17, 22, 7, 12, 17, 22, 7, 12, 17, 22,
   5, 9, 14, 20, 5, 9, 14, 20, 5, 9, 14, 20, 5, 9, 14, 20,
   4, 11, 16, 23, 4, 11, 16, 23, 4, 11, 16, 23, 4, 11, 16, 23,
   6, 10, 15, 21, 6, 10, 15, 21, 6, 10, 15, 21, 6, 10, 15, 21]

/-- The MD5 round function for round `i`. -/
def md5F (i b c d : Nat) : Nat :=
  if i < 16 then (b &&& c) ||| ((b ^^^ 4294967295) &&& d)
  else if i < 32 then (d &&& b) ||| ((d ^^^ 4294967295) &&& c)
  else if i < 48 then b ^^^ c ^^^ d
  else c ^^^ (b ||| (d ^^^ 4294967295))

/-- The MD5 message-word index for round `i`. -/
def md5G (i : Nat) : Nat :=
  if i < 16 then i
  else if i < 32 then (5 * i + 1) % 16
  else if i < 48 then (3 * i + 5) % 16
  else (7 * i) % 16

/-- Little-endian 32-bit word `j` of a 64-byte block. -/
def leWord (block : List Nat) (j : Nat) : Nat :=
  block.getD (4 * j) 0 + block.getD (4 * j + 1) 0 * 256 +
    block.getD (4 * j + 2) 0 * 65536 + block.getD (4 * j + 3) 0 * 16777216

/-- One MD5 round applied to the running `(a, b, c, d)` state. -/
def md5Round (block : List Nat) (st : Nat × Nat × Nat × Nat) (i : Nat) :
    Nat × Nat × Nat × Nat :=
  let a := st.1
  let b := st.2.1
  let c := st.2.2.1
  let d := st.2.2.2
  let f := w32 (md5F i b c d)
  let tmp := w32 (a + f + md5K.getD i 0 + leWord block (md5G i))
  (d, w32 (b + rotl32 tmp (md5S.getD i 0)), b, c)

/-- Process one 64-byte block. -/
def md5Block (st : Nat × Nat × Nat × Nat) (block : List Nat) :
    Nat × Nat × Nat × Nat :=
  let r := (List.range 64).foldl (md5Round block) st
  (w32 (st.1 + r.1), w32 (st.2.1 + r.2.1), w32 (st.2.2.1 + r.2.2.1),
   w32 (st.2.2.2 + r.2.2.2))

/-- Low `count` bytes of `n`, little-endian. -/
def natLEBytes (n count : Nat) : List Nat :=
  (List.range count).map (fun i => (n >>> (8 * i)) % 256)

/-- MD5 padding: a `0x80` byte, zeros to 56 mod 64, then the 64-bit
little-endian bit length. -/
def md5Pad (msg : List Nat) : List Nat :=
  let len := msg.length
  let z := (120 - (len + 1) % 64) % 64
  msg ++ [128] ++ List.replicate z 0 ++ natLEBytes (len * 8 % 18446744073709551616) 8

/-- Split a byte list into 64-byte chunks. -/
def chunksAux : Nat → List Nat → List (List Nat)
  | 0, _ => []
  | n + 1, l => l.take 64 :: chunksAux n (l.drop 64)

/-- All 64-byte blocks of a padded message. -/
def chunks64 (l : List Nat) : List (List Nat) :=
  chunksAux ((l.length + 63) / 64) l

/-- The four 32-bit MD5 state words of a message. -/
def md5Digest (msg : List Nat) : Nat × Nat × Nat × Nat :=
  (chunks64 (md5Pad msg)).foldl md5Block
    (0x67452301, 0xefcdab89, 0x98badcfe, 0x10325476)

/-- One lowercase hex digit. -/
def hexDigit (n : Nat) : Char :=
  if n < 10 then Char.ofNat (48 + n) else Char.ofNat (87 + n)

/-- Two lowercase hex digits of a byte. -/
def byteHex (b : Nat) : List Char :=
  [hexDigit (b / 16 % 16), hexDigit (b % 16)]

/-- Lowercase hex of a 32-bit word, rendered byte-wise little-endian
as in the MD5 digest. -/
def wordHexLE (w : Nat) : List Char :=
  (natLEBytes w 4).foldr (fun b acc => byteHex b ++ acc) []

/-- Lowercase hexadecimal MD5 digest of a byte list
(`hashlib.md5(...).hexdigest()`). -/
def md5Hex (msg : List Nat) : String :=
  let d := md5Digest msg
  String.mk (wordHexLE d.1 ++ wordHexLE d.2.1 ++ wordHexLE d.2.2.1 ++ wordHexLE d.2.2.2)

/-! ### The cache store

One persisted file per key, as in `Cache`: the file name is the key, the
payload is the pickled value (`none` models a payload that `pickle.load`
fails to decode), and `mtime` is the filesystem modification time that
`Cache.set` stamps as "now" by writing the file. -/

/-- A persisted cache file: decoded payload (or `none` when undecodable)
and modification time. -/
structure CacheFile where
  data : Option PyVal
  mtime : Int

/-- The state of the cache directory: an association of key to file
(at most one file per key, as on a filesystem). -/
abbrev CacheStore := List (String × CacheFile)

/-- An exception raised by a wrapped callable. -/
structure PyErr where
  msg : String
deriving DecidableEq

namespace Cache

/-- Python's `sorted(kwargs.items())`: keyword arguments sorted by name
(dict keys are distinct, so the value component never takes part in the
comparison). -/
def sortKwargs (kwargs : List (String × PyVal)) : List (String × PyVal) :=
  kwargs.mergeSort (fun a b => decide (a.1 ≤ b.1))

/-- The canonical key string of `Cache._get_cache_key`: `str` of each
positional argument in order, then `name=value` for each keyword argument
sorted by name, joined with a colon. -/
def key_str (args : List PyVal) (kwargs : List (String × PyVal)) : String :=
  String.intercalate (":")
    (args.map strOf ++ (sortKwargs kwargs).map (fun p => p.1 ++ "=" ++ strOf p.2))

/-- `Cache._get_cache_key`: the MD5 hexdigest of the canonical key string. -/
def _get_cache_key (args : List PyVal) (kwargs : List (String × PyVal)) : String :=
  md5Hex (strBytes (key_str args kwargs))

/-- `Cache.get`: miss when no file exists for the key, when the file's age
`now - mtime` exceeds the TTL, or when the payload fails to decode; hit
with the decoded value otherwise. Python returns the pair
`(False, None)` on a miss. -/
def get (store : CacheStore) (ttl now : Int) (key : String) : Bool × PyVal :=
  match store.find? (fun p => p.1 == key) with
  | none => (false, pyNone)
  | some e =>
    if now - e.2.mtime > ttl then (false, pyNone)
    else
      match e.2.data with
      | some v => (true, v)
      | none => (false, pyNone)

/-- `Cache.set`: write the pickled value under the key, overwriting any
prior file, with the modification time stamped as `now`. -/
def set (store : CacheStore) (now : Int) (key : String) (v : PyVal) : CacheStore :=
  (key, ⟨some v, now⟩) :: store.filter (fun p => !(p.1 == key))

/-- `Cache.clear`: unlink every cache file. -/
def clear (_store : CacheStore) : CacheStore := []

/-- `Cache.clear_expired`: unlink exactly the files whose age exceeds the
TTL. -/
def clear_expired (store : CacheStore) (ttl now : Int) : CacheStore :=
  store.filter (fun p => !(now - p.2.mtime > ttl : Bool))

end Cache

/-! ### The memoizing wrapper (`cached` decorator) -/

/-- Python truthiness of a value (generators define neither `__bool__`
nor `__len__`, hence are truthy). -/
def truthy : PyVal → Bool
  | pyNone => false
  | pyBool b => b
  | pyInt n => !(n == 0)
  | pyStr s => !(s == "")
  | pyList xs => !xs.isEmpty
  | pyTuple xs => !xs.isEmpty
  | pyDict ps => !ps.isEmpty
  | pySet xs => !xs.isEmpty
  | pyGen _ => true

/-- `kwargs.pop('force_refresh', False)`: the value stored under
`force_refresh` (or Python `False` when absent) together with the
remaining keyword arguments. -/
def popForceRefresh (kwargs : List (String × PyVal)) :
    PyVal × List (String × PyVal) :=
  match kwargs.find? (fun p => p.1 == "force_refresh") with
  | some p => (p.2, kwargs.filter (fun q => !(q.1 == "force_refresh")))
  | none => (pyBool false, kwargs)

/-- Does the value respond to `hasattr(result, '__iter__')`? True for
strings, lists, tuples, dicts, sets and generators; false for `None`,
booleans and integers. -/
def hasIter : PyVal → Bool
  | pyStr _ => true
  | pyList _ => true
  | pyTuple _ => true
  | pyDict _ => true
  | pySet _ => true
  | pyGen _ => true
  | _ => false

/-- `isinstance(result, (list, tuple, dict))`. -/
def isListTupleDict : PyVal → Bool
  | pyList _ => true
  | pyTuple _ => true
  | pyDict _ => true
  | _ => false

/-- Python `list(result)`: the elements an iterable yields, in order
(characters for a string, keys for a dict). Only applied to iterables. -/
def listOf : PyVal → PyVal
  | pyStr s => pyList (s.data.map (fun c => pyStr (String.mk [c])))
  | pyList xs => pyList xs
  | pyTuple xs => pyList xs
  | pyDict ps => pyList (ps.map Prod.fst)
  | pySet xs => pyList xs
  | pyGen xs => pyList xs
  | v => v

/-- The materialization step of the wrapper:
`if hasattr(result, '__iter__') and not isinstance(result, (list, tuple, dict)):
result = list(result)`. -/
def materialize (r : PyVal) : PyVal :=
  if hasIter r && !isListTupleDict r then listOf r else r

/-- A wrapped callable: a function of positional and keyword arguments
that either returns a value or raises. -/
abbrev PyFun := List PyVal → List (String × PyVal) → Except PyErr PyVal

/-- The outcome of one call of the memoized wrapper: the returned value or
propagated exception, the cache directory afterwards, and whether the
original callable was invoked. -/
structure WrapResult where
  result : Except PyErr PyVal
  store : CacheStore
  invoked : Bool

/-- One call of the `wrapper` closure produced by `cached`: pop
`force_refresh` from the keyword arguments, derive the key from the
function's `__name__` and the remaining arguments, consult the cache
unless refreshing, otherwise call the function, materialize the result
and store it. -/
def wrapper (funcName : String) (f : PyFun) (store : CacheStore)
    (ttl now : Int) (args : List PyVal) (kwargs : List (String × PyVal)) :
    WrapResult :=
  let fr := popForceRefresh kwargs
  let force_refresh := truthy fr.1
  let cache_key := Cache._get_cache_key (pyStr funcName :: args) fr.2
  let cached_val := Cache.get store ttl now cache_key
  if !force_refresh && cached_val.1 then
    ⟨Except.ok cached_val.2, store, false⟩
  else
    match f args fr.2 with
    | Except.error e => ⟨Except.error e, store, true⟩
    | Except.ok r =>
      let r' := materialize r
      ⟨Except.ok r', Cache.set store now cache_key r', true⟩

/-! ### Sanity checks of the embedding on concrete values -/

theorem strOf_int_example : strOf (pyInt 17) = "17" := by
  simp [strOf, reprOf]; rfl

theorem strOf_list_example : strOf (pyList [pyInt 1, pyStr ("a")]) = "[1, \x27a\x27]" := by
  simp [strOf, reprOf, reprList, pyStrQuote, escChar]; decide

set_option maxRecDepth 400000 in
theorem md5_test_vector : md5Hex (strBytes ("abc")) = "900150983cd24fb0d6963f7d28e17f72" := by
  decide

/-! ### Helper lemmas -/

/-- Looking a key up in a filtered store: the sole entry for the key (keys
are distinct on a filesystem) survives exactly when the filter keeps it. -/
theorem find?_filter_nodupkeys (l : List (String × CacheFile))
    (q : String × CacheFile → Bool) (k : String)
    (hnd : (l.map Prod.fst).Nodup) :
    (l.filter q).find? (fun p => p.1 == k) =
      match l.find? (fun p => p.1 == k) with
      | none => none
      | some e => if q e then some e else none := by
  induction l with
  | nil => simp
  | cons hd tl ih =>
    simp only [List.map_cons, List.nodup_cons] at hnd
    by_cases hk : hd.1 = k
    · subst hk
      have htl : tl.find? (fun p => p.1 == hd.1) = none := by
        rw [List.find?_eq_none]
        intro x hx
        simp only [beq_iff_eq]
        intro hx1
        exact hnd.1 (hx1 ▸ List.mem_map_of_mem Prod.fst hx)
      have htlf : (tl.filter q).find? (fun p => p.1 == hd.1) = none := by
        rw [List.find?_eq_none]
        intro x hx
        have := List.find?_eq_none.mp htl x (List.mem_of_mem_filter hx)
        exact this
      by_cases hq : q hd
      · simp [List.filter_cons, hq, List.find?_cons]
      · simp [List.filter_cons, hq, List.find?_cons, htlf, htl]
    · have hbeq : (hd.1 == k) = false := by simp [hk]
      by_cases hq : q hd
      · simp [List.filter_cons, hq, List.find?_cons, hbeq, ih hnd.2]
      · simp [List.filter_cons, hq, List.find?_cons, hbeq, ih hnd.2]

/-! ### Claims about the store -/

/-- After `Cache.set` stamps an entry at `t0`, a read at `now` within the
TTL window is a hit with the stored value. -/
theorem get_set_hit (store : CacheStore) (k : String) (v : PyVal)
    (t0 T now : Int) (h : ¬ (now - t0 > T)) :
    Cache.get (Cache.set store t0 k v) T now k = (true, v) := by
  simp [Cache.get, Cache.set, List.find?_cons, h]

/-- After `Cache.set` stamps an entry at `t0`, a read at `now` past the
TTL window is a miss. -/
theorem get_set_miss (store : CacheStore) (k : String) (v : PyVal)
    (t0 T now : Int) (h : now - t0 > T) :
    (Cache.get (Cache.set store t0 k v) T now k).1 = false := by
  simp [Cache.get, Cache.set, List.find?_cons, h]

/-- C2: a key written by `Cache.set` at time `t0` into a store with
`ttl = T` is returned as a hit `(true, v)` by `Cache.get` at any query
time in `[t0, t0 + T]` and as a miss at any query time strictly greater
than `t0 + T`; the age test `now - mtime > ttl` is evaluated against the
query time on every read. -/
theorem c2_ttl_window (store : CacheStore) (k : String) (v : PyVal)
    (T t0 now : Int) :
    (t0 ≤ now → now ≤ t0 + T →
      Cache.get (Cache.set store t0 k v) T now k = (true, v)) ∧
    (t0 + T < now →
      (Cache.get (Cache.set store t0 k v) T now k).1 = false) := by
  constructor
  · intro h1 h2
    exact get_set_hit store k v t0 T now (by omega)
  · intro h
    exact get_set_miss store k v t0 T now (by omega)

/-- Witness for C2 at a concrete store, key, value and times. -/
theorem c2_ttl_window_witness :
    ((0 : Int) ≤ 2 ∧ (2 : Int) ≤ 0 + 5 ∧
      Cache.get (Cache.set [] 0 ("k") (pyInt 9)) 5 2 ("k") = (true, pyInt 9)) ∧
    ((0 : Int) + 5 < 6 ∧
      (Cache.get (Cache.set [] 0 ("k") (pyInt 9)) 5 6 ("k")).1 = false) :=
  ⟨⟨by omega, by omega,
      (c2_ttl_window [] ("k") (pyInt 9) 5 0 2).1 (by omega) (by omega)⟩,
    ⟨by omega, (c2_ttl_window [] ("k") (pyInt 9) 5 0 6).2 (by omega)⟩⟩

/-- C4: `Cache.get` returns `found = false` (a value, never a raised
error: the model of `get` is a total function) in exactly three
situations: no file exists for the key, the file's age exceeds the TTL,
or the persisted payload fails to decode. -/
theorem c4_miss_conditions (store : CacheStore) (ttl now : Int) (k : String) :
    (Cache.get store ttl now k).1 = false ↔
      store.find? (fun p => p.1 == k) = none ∨
      (∃ e, store.find? (fun p => p.1 == k) = some e ∧ now - e.2.mtime > ttl) ∨
      (∃ e, store.find? (fun p => p.1 == k) = some e ∧ e.2.data = none) := by
  unfold Cache.get
  cases hf : store.find? (fun p => p.1 == k) with
  | none => simp
  | some e =>
    by_cases hage : now - e.2.mtime > ttl
    · simp [hage]
    · cases hd : e.2.data with
      | none => simp [hage, hd]
      | some v => simp [hage, hd]

/-- Witness for C4: a concrete corrupt (undecodable) entry is a miss. -/
theorem c4_miss_conditions_witness :
    (Cache.get [(("k"), ⟨none, 0⟩)] 100 0 ("k")).1 = false :=
  (c4_miss_conditions [(("k"), ⟨none, 0⟩)] 100 0 ("k")).mpr
    (Or.inr (Or.inr ⟨(("k"), ⟨none, 0⟩), by simp [List.find?_cons], rfl⟩))

/-- C6: `set(k, v)` followed immediately by `get(k)` on the same store
returns `(true, v)` (for a store whose TTL is not negative). -/
theorem c6_roundtrip (store : CacheStore) (k : String) (v : PyVal)
    (t ttl : Int) (h : 0 ≤ ttl) :
    Cache.get (Cache.set store t k v) ttl t k = (true, v) :=
  get_set_hit store k v t ttl t (by omega)

/-- Witness for C6 with a materialized-sequence value. -/
theorem c6_roundtrip_witness :
    (0 : Int) ≤ 3600 ∧
    Cache.get (Cache.set [] 7 ("k") (pyList [pyInt 1, pyInt 2]) ) 3600 7 ("k")
      = (true, pyList [pyInt 1, pyInt 2]) :=
  ⟨by omega, c6_roundtrip [] ("k") (pyList [pyInt 1, pyInt 2]) 7 3600 (by omega)⟩

/-- C7: `clear_expired` removes exactly the entries whose age is strictly
greater than the TTL and leaves every other entry present with unchanged
content (per-key characterization; a filesystem store holds at most one
file per key). -/
theorem c7_clear_expired_exact (store : CacheStore) (ttl now : Int)
    (hnd : (store.map Prod.fst).Nodup) (k : String) :
    (Cache.clear_expired store ttl now).find? (fun p => p.1 == k) =
      match store.find? (fun p => p.1 == k) with
      | none => none
      | some e => if now - e.2.mtime > ttl then none else some e := by
  unfold Cache.clear_expired
  rw [find?_filter_nodupkeys _ _ _ hnd]
  cases store.find? (fun p => p.1 == k) with
  | none => rfl
  | some e =>
    by_cases h : now - e.2.mtime > ttl
    · simp [h]
    · simp [h]

/-- Witness for C7: one expired and one valid entry; the expired one is
removed, the valid one survives unchanged. -/
theorem c7_clear_expired_exact_witness :
    ((([(("old"), ⟨some (pyInt 1), 0⟩), (("new"), ⟨some (pyInt 2), 50⟩)] :
        CacheStore).map Prod.fst).Nodup ∧
      (Cache.clear_expired
          [(("old"), ⟨some (pyInt 1), 0⟩), (("new"), ⟨some (pyInt 2), 50⟩)] 10 60).find?
        (fun p => p.1 == "old") = none) ∧
    (Cache.clear_expired
        [(("old"), ⟨some (pyInt 1), 0⟩), (("new"), ⟨some (pyInt 2), 50⟩)] 10 60).find?
      (fun p => p.1 == "new") = some (("new"), ⟨some (pyInt 2), 50⟩) := by
  refine ⟨⟨by simp, ?_⟩, ?_⟩
  · rw [c7_clear_expired_exact _ 10 60 (by simp) ("old")]
    simp [List.find?_cons]
  · rw [c7_clear_expired_exact _ 10 60 (by simp) ("new")]
    simp [List.find?_cons]

/-! ### Claims about the key encoder -/

/-- Sorting keyword arguments by name is stable under permutation of the
call-site order, provided the names are distinct (as dict keys are). -/
theorem sortKwargs_eq_of_perm (kw1 kw2 : List (String × PyVal))
    (hp : kw1.Perm kw2) (hnd : (kw1.map Prod.fst).Nodup) :
    Cache.sortKwargs kw1 = Cache.sortKwargs kw2 := by
  have hperm : (Cache.sortKwargs kw1).Perm (Cache.sortKwargs kw2) :=
    ((List.mergeSort_perm kw1 _).trans hp).trans (List.mergeSort_perm kw2 _).symm
  have htrans : ∀ a b c : String × PyVal,
      decide (a.1 ≤ b.1) → decide (b.1 ≤ c.1) → decide (a.1 ≤ c.1) := by
    intro a b c hab hbc
    simp only [decide_eq_true_eq] at hab hbc ⊢
    exact le_trans hab hbc
  have htotal : ∀ a b : String × PyVal,
      decide (a.1 ≤ b.1) || decide (b.1 ≤ a.1) := by
    intro a b
    simp only [Bool.or_eq_true, decide_eq_true_eq]
    exact le_total a.1 b.1
  have hs1 : (Cache.sortKwargs kw1).Pairwise (fun a b => a.1 ≤ b.1) := by
    have := List.sorted_mergeSort htrans htotal kw1
    exact this.imp (fun h => by simpa using h)
  have hs2 : (Cache.sortKwargs kw2).Pairwise (fun a b => a.1 ≤ b.1) := by
    have := List.sorted_mergeSort htrans htotal kw2
    exact this.imp (fun h => by simpa using h)
  have hnd1 : ((Cache.sortKwargs kw1).map Prod.fst).Nodup :=
    (hnd.perm ((List.mergeSort_perm kw1 _).map Prod.fst).symm)
  have hnd2 : ((Cache.sortKwargs kw2).map Prod.fst).Nodup :=
    hnd1.perm (hperm.map Prod.fst)
  have hne1 : (Cache.sortKwargs kw1).Pairwise (fun a b => a.1 ≠ b.1) :=
    List.pairwise_map.mp hnd1
  have hne2 : (Cache.sortKwargs kw2).Pairwise (fun a b => a.1 ≠ b.1) :=
    List.pairwise_map.mp hnd2
  have hlt1 : (Cache.sortKwargs kw1).Pairwise (fun a b => a.1 < b.1) :=
    (hs1.and hne1).imp (fun h => lt_of_le_of_ne h.1 h.2)
  have hlt2 : (Cache.sortKwargs kw2).Pairwise (fun a b => a.1 < b.1) :=
    (hs2.and hne2).imp (fun h => lt_of_le_of_ne h.1 h.2)
  haveI : IsAntisymm (String × PyVal) (fun a b => a.1 < b.1) :=
    ⟨fun a b h1 h2 => absurd (lt_trans h1 h2) (lt_irrefl _)⟩
  exact List.eq_of_perm_of_sorted hperm hlt1 hlt2

/-- C8: the key encoder is deterministic and independent of
keyword-argument ordering: with the same positional arguments (the
function identity being the first of them) and the same keyword-argument
mapping in any call-site order, `_get_cache_key` produces equal keys,
because keyword arguments are sorted by name before conversion. -/
theorem c8_kwarg_order_independence (args : List PyVal)
    (kw1 kw2 : List (String × PyVal)) (hp : kw1.Perm kw2)
    (hnd : (kw1.map Prod.fst).Nodup) :
    Cache._get_cache_key args kw1 = Cache._get_cache_key args kw2 := by
  unfold Cache._get_cache_key Cache.key_str
  rw [sortKwargs_eq_of_perm kw1 kw2 hp hnd]

/-- Witness for C8: two call-site orders of the same keyword mapping. -/
theorem c8_kwarg_order_independence_witness :
    ([(("b"), pyInt 1), (("a"), pyInt 2)] :
        List (String × PyVal)).Perm [(("a"), pyInt 2), (("b"), pyInt 1)] ∧
    Cache._get_cache_key [pyStr ("f")] [(("b"), pyInt 1), (("a"), pyInt 2)] =
      Cache._get_cache_key [pyStr ("f")] [(("a"), pyInt 2), (("b"), pyInt 1)] := by
  have hp : ([(("b"), pyInt 1), (("a"), pyInt 2)] :
      List (String × PyVal)).Perm [(("a"), pyInt 2), (("b"), pyInt 1)] :=
    List.Perm.swap (("a"), pyInt 2) (("b"), pyInt 1) []
  exact ⟨hp, c8_kwarg_order_independence [pyStr ("f")] _ _ hp (by simp)⟩

/-- The canonical key string of a single positional argument is `str` of
that argument. -/
theorem key_str_single_positional (v : PyVal) :
    Cache.key_str [v] [] = strOf v := by
  unfold Cache.key_str Cache.sortKwargs
  simp [String.intercalate]
  rfl

/-- The canonical key string of a single keyword argument `name=v` is
`name=` followed by `str` of the value. -/
theorem key_str_single_keyword (name : String) (v : PyVal) :
    Cache.key_str [] [(name, v)] = name ++ "=" ++ strOf v := by
  unfold Cache.key_str Cache.sortKwargs
  simp [String.intercalate]
  rfl

set_option maxRecDepth 400000 in
/-- C9: the key encoder distinguishes how an argument is passed, not only
its value: a positional argument contributes `str(v)` to the canonical
key string while the keyword argument `name=v` contributes `name=str(v)`,
so the two canonical strings are never equal, and (at a concrete
instance) the resulting MD5 cache keys differ, so such calls do not share
a cache entry. -/
theorem c9_positional_vs_keyword :
    (∀ v : PyVal, Cache.key_str [v] [] = strOf v) ∧
    (∀ (name : String) (v : PyVal),
      Cache.key_str [] [(name, v)] = name ++ "=" ++ strOf v) ∧
    (∀ (name : String) (v : PyVal),
      Cache.key_str [v] [] ≠ Cache.key_str [] [(name, v)]) ∧
    Cache._get_cache_key [pyInt 1] [] ≠ Cache._get_cache_key [] [(("x"), pyInt 1)] := by
  refine ⟨key_str_single_positional, key_str_single_keyword, ?_, ?_⟩
  · intro name v h
    rw [key_str_single_positional, key_str_single_keyword] at h
    have := congrArg String.length h
    simp only [String.length_append] at this
    have h1 : ("=" : String).length = 1 := rfl
    omega
  · unfold Cache._get_cache_key
    rw [key_str_single_positional, key_str_single_keyword]
    show md5Hex (strBytes (strOf (pyInt 1))) ≠ _
    have h1 : strOf (pyInt 1) = "1" := by simp [strOf, reprOf]; rfl
    rw [h1]
    show _ ≠ md5Hex (strBytes ("x" ++ "=" ++ "1"))
    have h2 : ("x" ++ "=" ++ "1" : String) = "x=1" := by rfl
    rw [h2]
    decide

/-- Witness for C9 at a concrete value and keyword name. -/
theorem c9_positional_vs_keyword_witness :
    Cache.key_str [pyInt 1] [] = strOf (pyInt 1) ∧
    Cache.key_str [pyInt 1] [] ≠ Cache.key_str [] [(("x"), pyInt 1)] :=
  ⟨c9_positional_vs_keyword.1 (pyInt 1),
    c9_positional_vs_keyword.2.2.1 ("x") (pyInt 1)⟩

/-! ### Claims about the memoizing wrapper -/

/-- Popping `force_refresh` when the flag is absent leaves the keyword
arguments unchanged and yields Python `False`. -/
theorem popForceRefresh_of_absent (kwargs : List (String × PyVal))
    (h : kwargs.find? (fun p => p.1 == "force_refresh") = none) :
    popForceRefresh kwargs = (pyBool false, kwargs) := by
  unfold popForceRefresh
  rw [h]

/-- Popping `force_refresh` when the flag is present yields its value and
removes it from the keyword arguments. -/
theorem popForceRefresh_of_present (kwargs : List (String × PyVal)) (fr : PyVal)
    (h : kwargs.find? (fun p => p.1 == "force_refresh") = some (("force_refresh"), fr)) :
    popForceRefresh kwargs =
      (fr, kwargs.filter (fun q => !(q.1 == "force_refresh"))) := by
  unfold popForceRefresh
  rw [h]

/-- `Cache.get` on an empty store misses. -/
theorem get_nil (ttl now : Int) (k : String) :
    Cache.get [] ttl now k = (false, pyNone) := rfl

/-- When the wrapper takes the fresh path — the popped `force_refresh`
value is truthy, or the cache lookup misses — it calls the function on
the remaining arguments, materializes, stores and returns the result, or
propagates the exception with the store untouched. -/
theorem wrapper_fresh (n : String) (f : PyFun) (store : CacheStore)
    (ttl now : Int) (args : List PyVal) (kwargs : List (String × PyVal))
    (hpath : truthy (popForceRefresh kwargs).1 = true ∨
      (Cache.get store ttl now
        (Cache._get_cache_key (pyStr n :: args) (popForceRefresh kwargs).2)).1 = false) :
    wrapper n f store ttl now args kwargs =
      match f args (popForceRefresh kwargs).2 with
      | Except.error e => ⟨Except.error e, store, true⟩
      | Except.ok r =>
        ⟨Except.ok (materialize r),
          Cache.set store now
            (Cache._get_cache_key (pyStr n :: args) (popForceRefresh kwargs).2)
            (materialize r), true⟩ := by
  unfold wrapper
  rcases hpath with h | h
  · simp [h]
  · simp [h]

/-- When the wrapper is not refreshing and the cache lookup hits, it
returns the stored value without invoking the function and leaves the
store untouched. -/
theorem wrapper_hit (n : String) (f : PyFun) (store : CacheStore)
    (ttl now : Int) (args : List PyVal) (kwargs : List (String × PyVal))
    (hforce : truthy (popForceRefresh kwargs).1 = false)
    (hhit : (Cache.get store ttl now
      (Cache._get_cache_key (pyStr n :: args) (popForceRefresh kwargs).2)).1 = true) :
    wrapper n f store ttl now args kwargs =
      ⟨Except.ok (Cache.get store ttl now
          (Cache._get_cache_key (pyStr n :: args) (popForceRefresh kwargs).2)).2,
        store, false⟩ := by
  unfold wrapper
  simp [hforce, hhit]

/-- C3: with a truthy `force_refresh` keyword, the cache lookup is
skipped entirely (the outcome does not depend on the store's contents),
the original callable is always invoked, its result always overwrites
the stored entry for the derived key, and the flag is never forwarded:
the callable receives the keyword arguments with `force_refresh`
removed. -/
theorem c3_force_refresh (n : String) (f : PyFun) (store : CacheStore)
    (ttl now : Int) (args : List PyVal) (kwargs : List (String × PyVal))
    (fr : PyVal)
    (hfind : kwargs.find? (fun p => p.1 == "force_refresh") =
      some (("force_refresh"), fr))
    (htruthy : truthy fr = true) :
    wrapper n f store ttl now args kwargs =
      match f args (kwargs.filter (fun q => !(q.1 == "force_refresh"))) with
      | Except.error e => ⟨Except.error e, store, true⟩
      | Except.ok r =>
        ⟨Except.ok (materialize r),
          Cache.set store now
            (Cache._get_cache_key (pyStr n :: args)
              (kwargs.filter (fun q => !(q.1 == "force_refresh"))))
            (materialize r), true⟩ := by
  have hpop := popForceRefresh_of_present kwargs fr hfind
  have hfr := wrapper_fresh n f store ttl now args kwargs
    (Or.inl (by rw [hpop]; exact htruthy))
  rw [hfr, hpop]

/-- Witness for C3: a concrete refreshing call; the callable is invoked
on the flag-free arguments and its result is stored. -/
theorem c3_force_refresh_witness :
    ([(("force_refresh"), pyBool true)] : List (String × PyVal)).find?
        (fun p => p.1 == "force_refresh") = some (("force_refresh"), pyBool true) ∧
    truthy (pyBool true) = true ∧
    wrapper ("fetch") (fun _ _ => Except.ok (pyInt 5)) [] 3600 0 []
        [(("force_refresh"), pyBool true)] =
      ⟨Except.ok (materialize (pyInt 5)),
        Cache.set [] 0 (Cache._get_cache_key [pyStr ("fetch")] [])
          (materialize (pyInt 5)), true⟩ :=
  ⟨rfl, rfl,
    c3_force_refresh ("fetch") _ [] 3600 0 [] [(("force_refresh"), pyBool true)]
      (pyBool true) rfl rfl⟩

/-- C5: if the wrapped callable raises, the wrapper propagates the same
error to the caller, the store is left exactly as it was, and no entry is
persisted for that call. -/
theorem c5_error_propagation (n : String) (f : PyFun) (store : CacheStore)
    (ttl now : Int) (args : List PyVal) (kwargs : List (String × PyVal))
    (e : PyErr)
    (hpath : truthy (popForceRefresh kwargs).1 = true ∨
      (Cache.get store ttl now
        (Cache._get_cache_key (pyStr n :: args) (popForceRefresh kwargs).2)).1 = false)
    (herr : f args (popForceRefresh kwargs).2 = Except.error e) :
    wrapper n f store ttl now args kwargs = ⟨Except.error e, store, true⟩ := by
  rw [wrapper_fresh n f store ttl now args kwargs hpath, herr]

/-- Witness for C5: a concrete raising callable on an empty store. -/
theorem c5_error_propagation_witness :
    ((Cache.get [] 3600 0
        (Cache._get_cache_key [pyStr ("fetch2")] [])).1 = false) ∧
    wrapper ("fetch2") (fun _ _ => Except.error ⟨("boom")⟩) [] 3600 0 [] [] =
      ⟨Except.error ⟨("boom")⟩, [], true⟩ :=
  ⟨rfl, c5_error_propagation ("fetch2") _ [] 3600 0 [] [] ⟨("boom")⟩
    (Or.inr rfl) rfl⟩

/-- C10: the wrapper keys entries by the wrapped function's bare
`__name__`: after one wrapped callable `f` with name `n` populates the
(shared) store, a second, possibly different callable `g` with the same
name, the same arguments and the same store returns `f`'s cached result
without being invoked. -/
theorem c10_name_collision (n : String) (f g : PyFun) (args : List PyVal)
    (kwargs : List (String × PyVal)) (ttl now : Int)
    (httl : 0 ≤ ttl)
    (hflag : kwargs.find? (fun p => p.1 == "force_refresh") = none)
    (v : PyVal) (hf : f args kwargs = Except.ok v) :
    wrapper n g (wrapper n f [] ttl now args kwargs).store ttl now args kwargs =
      ⟨Except.ok (materialize v),
        (wrapper n f [] ttl now args kwargs).store, false⟩ := by
  have hpop := popForceRefresh_of_absent kwargs hflag
  have hkey : (popForceRefresh kwargs).2 = kwargs := by rw [hpop]
  have hK : Cache._get_cache_key (pyStr n :: args) (popForceRefresh kwargs).2 =
      Cache._get_cache_key (pyStr n :: args) kwargs := by rw [hkey]
  have h1 : wrapper n f [] ttl now args kwargs =
      ⟨Except.ok (materialize v),
        Cache.set [] now (Cache._get_cache_key (pyStr n :: args) kwargs)
          (materialize v), true⟩ := by
    rw [wrapper_fresh n f [] ttl now args kwargs (Or.inr rfl), hkey, hf]
  have hget : Cache.get
      (Cache.set [] now (Cache._get_cache_key (pyStr n :: args) kwargs)
        (materialize v)) ttl now
      (Cache._get_cache_key (pyStr n :: args) kwargs) = (true, materialize v) :=
    get_set_hit [] _ (materialize v) now ttl now (by omega)
  rw [h1]
  rw [wrapper_hit n g _ ttl now args kwargs (by rw [hpop]; rfl) (by rw [hK, hget])]
  rw [hK, hget]

/-- Witness for C10: two different callables named alike share an entry. -/
theorem c10_name_collision_witness :
    (0 : Int) ≤ 3600 ∧
    ([] : List (String × PyVal)).find? (fun p => p.1 == "force_refresh") = none ∧
    ((fun (_ : List PyVal) (_ : List (String × PyVal)) =>
        (Except.ok (pyInt 42) : Except PyErr PyVal)) [pyInt 3] [] = Except.ok (pyInt 42)) ∧
    wrapper ("dup") (fun _ _ => Except.ok (pyStr ("other")))
        (wrapper ("dup") (fun _ _ => Except.ok (pyInt 42)) [] 3600 0 [pyInt 3] []).store
        3600 0 [pyInt 3] [] =
      ⟨Except.ok (materialize (pyInt 42)),
        (wrapper ("dup") (fun _ _ => Except.ok (pyInt 42)) [] 3600 0 [pyInt 3] []).store,
        false⟩ :=
  ⟨by omega, rfl, rfl,
    c10_name_collision ("dup") _ _ [pyInt 3] [] 3600 0 (by omega) rfl (pyInt 42) rfl⟩

/-- C1 counterexample: a wrapped callable returning the set `{1}` does
not get its result back unchanged — the wrapper converts the set into the
list `[1]`, because the code's materialization guard only exempts
`list`, `tuple` and `dict`, not `set`. -/
theorem c1_materialization_counterexample :
    (wrapper ("fetch3") (fun _ _ => Except.ok (pySet [pyInt 1]))
        [] 3600 0 [] []).result = Except.ok (pyList [pyInt 1]) ∧
    pyList [pyInt 1] ≠ pySet [pyInt 1] := by
  constructor
  · rfl
  · intro h
    exact PyVal.noConfusion h

/-- C1 (amended): a freshly computed result is returned and stored after
the materialization step, and a cache hit returns the stored value; the
materialization step leaves lists, tuples, dicts and non-iterable
scalars unchanged, and drains every other iterable — a lazy generator,
but also a set or a string — into an eager list of the elements it
yields (characters for a string). -/
theorem c1_materialization_amended :
    (∀ (n : String) (f : PyFun) (store : CacheStore) (ttl now : Int)
        (args : List PyVal) (kwargs : List (String × PyVal)) (r : PyVal),
      (truthy (popForceRefresh kwargs).1 = true ∨
        (Cache.get store ttl now
          (Cache._get_cache_key (pyStr n :: args) (popForceRefresh kwargs).2)).1 = false) →
      f args (popForceRefresh kwargs).2 = Except.ok r →
      (wrapper n f store ttl now args kwargs).result = Except.ok (materialize r)) ∧
    (∀ (n : String) (f : PyFun) (store : CacheStore) (ttl now : Int)
        (args : List PyVal) (kwargs : List (String × PyVal)),
      truthy (popForceRefresh kwargs).1 = false →
      (Cache.get store ttl now
        (Cache._get_cache_key (pyStr n :: args) (popForceRefresh kwargs).2)).1 = true →
      (wrapper n f store ttl now args kwargs).result =
        Except.ok (Cache.get store ttl now
          (Cache._get_cache_key (pyStr n :: args) (popForceRefresh kwargs).2)).2) ∧
    (∀ xs, materialize (pyList xs) = pyList xs) ∧
    (∀ xs, materialize (pyTuple xs) = pyTuple xs) ∧
    (∀ ps, materialize (pyDict ps) = pyDict ps) ∧
    materialize pyNone = pyNone ∧
    (∀ b, materialize (pyBool b) = pyBool b) ∧
    (∀ i, materialize (pyInt i) = pyInt i) ∧
    (∀ xs, materialize (pyGen xs) = pyList xs) ∧
    (∀ xs, materialize (pySet xs) = pyList xs) ∧
    (∀ s, materialize (pyStr s) =
      pyList (s.data.map (fun c => pyStr (String.mk [c])))) := by
  refine ⟨?_, ?_, fun xs => rfl, fun xs => rfl, fun ps => rfl, rfl,
    fun b => rfl, fun i => rfl, fun xs => rfl, fun xs => rfl, fun s => rfl⟩
  · intro n f store ttl now args kwargs r hpath hok
    rw [wrapper_fresh n f store ttl now args kwargs hpath, hok]
  · intro n f store ttl now args kwargs hforce hhit
    rw [wrapper_hit n f store ttl now args kwargs hforce hhit]

/-- Witness for C1 (amended): a generator result is drained into a list
and returned. -/
theorem c1_materialization_amended_witness :
    ((Cache.get [] 3600 0
        (Cache._get_cache_key [pyStr ("fetch4")] [])).1 = false) ∧
    (wrapper ("fetch4") (fun _ _ => Except.ok (pyGen [pyInt 1, pyInt 2]))
        [] 3600 0 [] []).result
      = Except.ok (materialize (pyGen [pyInt 1, pyInt 2])) :=
  ⟨rfl, c1_materialization_amended.1 ("fetch4") _ [] 3600 0 [] [] _
    (Or.inr rfl) rfl⟩
